import Mathlib

/-!
Verification of the resilient session/navigation core of a TikTok profile
scraper.  The Python sources (`tiktok_scraper.py`, `connection_manager.py`,
`browser_setup.py`, `main.py`, `config.py`) are shallowly embedded below:
pure text/number conversions become Lean functions on `List Char` / `ℚ` / `ℕ`,
the retry loops become fuel-indexed recursions over abstract attempt-outcome
streams, and the session-rotation logic becomes an event-trace semantics.
Library builtins (`float`, `int`, `str.split`, `datetime`) are modelled at the
character-list level, restricted to the grammar the scraper actually feeds
them, as documented at each definition.
-/

namespace TikTokScraper

/-! ## Character-level models of Python string builtins -/

/-- Model of Python's substring test `needle in haystack` on character lists. -/
def containsSeq (needle : List Char) : List Char → Bool
  | [] => needle.isEmpty
  | c :: t => needle.isPrefixOf (c :: t) || containsSeq needle t

/-- Model of Python's `str.strip()`: drop leading and trailing whitespace. -/
def pyStrip (l : List Char) : List Char :=
  ((l.dropWhile Char.isWhitespace).reverse.dropWhile Char.isWhitespace).reverse

/-- Model of Python's `str.split(sep)` for a single-character separator. -/
def splitOnChar (c : Char) : List Char → List (List Char)
  | [] => [[]]
  | x :: t =>
    let r := splitOnChar c t
    if x = c then [] :: r
    else
      match r with
      | [] => [[x]]
      | h :: t' => (x :: h) :: t'

/-- Numeric value of a list of decimal digit characters (MSB first). -/
def digitsToNat (l : List Char) : ℕ :=
  l.foldl (fun a c => 10 * a + (c.toNat - 48)) 0

/-- Model of Python's `int(s)` restricted to the scraper's inputs:
after stripping surrounding whitespace, a nonempty all-digit string parses to
the denoted natural number; anything else raises `ValueError` (here: `none`).
Signed identifiers are not modelled (video ids are unsigned digit strings). -/
def pyInt (l : List Char) : Option ℕ :=
  let t := pyStrip l
  if t ≠ [] ∧ t.all Char.isDigit then some (digitsToNat t) else none

/-- Model of Python's `float(s)` on an unsigned decimal numeral: digit
characters with at most one decimal point, at least one digit overall
(`"1"`, `"1.5"`, `".5"`, `"5."`).  A leading sign negates.  Exponent and
underscore forms, which the scraper never produces after its cleaning
passes, are not modelled (they are rejected). -/
def pyFloatUnsigned (l : List Char) : Option ℚ :=
  let intPart := l.takeWhile (fun c => c ≠ '.')
  let rest := l.dropWhile (fun c => c ≠ '.')
  if !intPart.all Char.isDigit then none
  else
    match rest with
    | [] => if intPart.isEmpty then none else some (digitsToNat intPart : ℚ)
    | _ :: frac =>
      if frac.contains '.' then none
      else if !frac.all Char.isDigit then none
      else if intPart.isEmpty ∧ frac.isEmpty then none
      else some ((digitsToNat intPart : ℚ) + (digitsToNat frac : ℚ) / 10 ^ frac.length)

/-- Model of Python's `float(s)` with an optional leading sign. -/
def pyFloat (l : List Char) : Option ℚ :=
  match l with
  | '-' :: rest => (pyFloatUnsigned rest).map (fun q => -q)
  | '+' :: rest => pyFloatUnsigned rest
  | _ => pyFloatUnsigned l

/-! ## Calendar model (Python `datetime` as used by the scraper)

`datetime.fromtimestamp(ts).strftime('%Y-%m-%d %H:%M:%S')` is modelled as a
proleptic-Gregorian rendering of the epoch second count (the scraper's spec
calls this the canonical timestamp string; the timezone is fixed to UTC), and
`datetime.strptime(s, '%Y-%m-%d %H:%M:%S')` as the inverse parse with full
range validation, as `strptime` performs. -/

/-- Gregorian leap-year test. -/
def isLeap (y : ℕ) : Bool := y % 4 = 0 && (y % 100 ≠ 0 || y % 400 = 0)

/-- Number of days in month `m` of year `y`. -/
def daysInMonth (y m : ℕ) : ℕ :=
  if m = 2 then (if isLeap y then 29 else 28)
  else if m = 4 ∨ m = 6 ∨ m = 9 ∨ m = 11 then 30
  else 31

/-- Civil date from a day count (days since 1970-01-01), via the standard
era/day-of-era decomposition.  Returns `(year, month, day)`. -/
def civilFromDays (z : ℕ) : ℕ × ℕ × ℕ :=
  let z' := z + 719468
  let era := z' / 146097
  let doe := z' % 146097
  let yoe := (doe - doe / 1460 + doe / 36524 - doe / 146096) / 365
  let doy := doe - (365 * yoe + yoe / 4 - yoe / 100)
  let mp := (5 * doy + 2) / 153
  let d := doy - (153 * mp + 2) / 5 + 1
  let m := if mp < 10 then mp + 3 else mp - 9
  (if m ≤ 2 then era * 400 + yoe + 1 else era * 400 + yoe, m, d)

/-- Day count (days since 1970-01-01, possibly negative) of a civil date. -/
def daysFromCivil (y m d : ℕ) : ℤ :=
  let y' := y - (if m ≤ 2 then 1 else 0)
  let era := y' / 400
  let yoe := y' % 400
  let doy := (153 * (if 2 < m then m - 3 else m + 9) + 2) / 5 + d - 1
  let doe := yoe * 365 + yoe / 4 - yoe / 100 + doy
  (era * 146097 + doe : ℤ) - 719468

/-- Two-digit zero-padded rendering of a field value. -/
def pad2 (n : ℕ) : String := if n < 10 then "0" ++ toString n else toString n

/-- Model of `datetime.fromtimestamp(ts).strftime('%Y-%m-%d %H:%M:%S')` for a
nonnegative epoch second count. -/
def formatTimestamp (ts : ℕ) : String :=
  let days := ts / 86400
  let secs := ts % 86400
  let c := civilFromDays days
  toString c.1 ++ "-" ++ pad2 c.2.1 ++ "-" ++ pad2 c.2.2 ++ " " ++
    pad2 (secs / 3600) ++ ":" ++ pad2 (secs % 3600 / 60) ++ ":" ++ pad2 (secs % 60)

/-- Model of `datetime.strptime(s, '%Y-%m-%d %H:%M:%S')` returning the epoch
second count, or `none` where `strptime` raises `ValueError` (wrong shape,
non-digit fields, or out-of-range field values). -/
def parseDateTime (s : String) : Option ℤ :=
  match splitOnChar ' ' s.data with
  | [datePart, timePart] =>
    match splitOnChar '-' datePart, splitOnChar ':' timePart with
    | [ys, ms, ds], [hs, mins, secs] =>
      if ys ≠ [] ∧ ys.all Char.isDigit ∧ ms ≠ [] ∧ ms.all Char.isDigit ∧
         ds ≠ [] ∧ ds.all Char.isDigit ∧ hs ≠ [] ∧ hs.all Char.isDigit ∧
         mins ≠ [] ∧ mins.all Char.isDigit ∧ secs ≠ [] ∧ secs.all Char.isDigit then
        let y := digitsToNat ys
        let mo := digitsToNat ms
        let d := digitsToNat ds
        let h := digitsToNat hs
        let mi := digitsToNat mins
        let sec := digitsToNat secs
        if 1 ≤ y ∧ y ≤ 9999 ∧ 1 ≤ mo ∧ mo ≤ 12 ∧ 1 ≤ d ∧ d ≤ daysInMonth y mo ∧
           h ≤ 23 ∧ mi ≤ 59 ∧ sec ≤ 59 then
          some (daysFromCivil y mo d * 86400 + (h * 3600 + mi * 60 + sec : ℕ))
        else none
      else none
    | _, _ => none
  | _ => none

/-! ## `connection_manager.py`: `ConnectionManager.execute_with_retry`

The wrapped operation is abstracted as a stream `op : ℕ → Except String α`
giving the result of each invocation (attempt index `i`); `jit i` is the
value drawn by `random.uniform(0, 1)` before the sleep of attempt `i`.
The embedding returns the Python result (`Except` models return vs raise)
together with the list of sleep durations performed and the number of
invocations of the operation. -/

/-- Source line: `"Connection refused" in str(e) or "invalid session id" in str(e)`. -/
def is_retryable_error (e : String) : Bool :=
  containsSeq "Connection refused".data e.data || containsSeq "invalid session id".data e.data

/-- Loop body of `execute_with_retry`: `i` is the current attempt index,
the fuel is the number of loop iterations left, `last` the current
`last_exception`.  Fuel 0 models falling off the loop: `raise last_exception`. -/
def execute_with_retry_aux {α : Type} (op : ℕ → Except String α) (base : ℚ)
    (jit : ℕ → ℚ) : ℕ → ℕ → String → Except String α × List ℚ × ℕ
  | _, 0, last => (Except.error last, [], 0)
  | i, fuel + 1, _ =>
    match op i with
    | Except.ok v => (Except.ok v, [], 1)
    | Except.error e =>
      if is_retryable_error e then
        let r := execute_with_retry_aux op base jit (i + 1) fuel e
        (r.1, (base * 2 ^ i + jit i) :: r.2.1, r.2.2 + 1)
      else (Except.error e, [], 1)

/-- `ConnectionManager.execute_with_retry` (connection_manager.py, lines 10-27):
result, sleep durations, and operation-invocation count.  The initial
`last_exception = None` (only reachable with `max_retries = 0`) is modelled by
a distinguished error string. -/
def execute_with_retry {α : Type} (op : ℕ → Except String α) (base : ℚ)
    (jit : ℕ → ℚ) (maxRetries : ℕ) : Except String α × List ℚ × ℕ :=
  execute_with_retry_aux op base jit 0 maxRetries "TypeError: last_exception is None"

/-! ## `tiktok_scraper.py`: readiness check -/

/-- Abstract DOM state seen by `_check_content_loaded`: whether each of the
four content-indicator selectors matches, whether various challenge-style
elements (never probed by the code) are present, and whether the outer
readiness script throws. -/
structure PageState where
  postItem : Bool
  followersCount : Bool
  likesCount : Bool
  userTitle : Bool
  verificationBanner : Bool
  captchaContainer : Bool
  verificationIframe : Bool
  scriptError : Bool
  deriving DecidableEq

/-- Number of the four content-indicator selectors that match
(`found_elements` in the source). -/
def contentIndicatorCount (p : PageState) : ℕ :=
  (if p.postItem then 1 else 0) + (if p.followersCount then 1 else 0) +
    (if p.likesCount then 1 else 0) + (if p.userTitle then 1 else 0)

/-- `TikTokScraper._check_content_loaded` (tiktok_scraper.py, lines 36-74):
returns `found_elements >= 2`; any exception in the outer try yields `False`.
The challenge-element fields of `PageState` are never consulted. -/
def check_content_loaded (p : PageState) : Bool :=
  if p.scriptError then false else decide (2 ≤ contentIndicatorCount p)

/-- Readiness verdict vocabulary of the specification (§3, §4.3). -/
inductive Verdict where
  | Ready
  | BotChallenge
  | Unknown
  deriving DecidableEq

/-- Modelled from the spec (§4.3), not from the source: the three-valued
readiness detector the specification describes, with content quorum first and
challenge probing second.  Stated only to compare with the source's
`check_content_loaded`. -/
def specCheckReady (p : PageState) : Verdict :=
  if 2 ≤ contentIndicatorCount p then Verdict.Ready
  else if p.verificationBanner ∨ p.captchaContainer ∨ p.verificationIframe then
    Verdict.BotChallenge
  else Verdict.Unknown

/-! ## `tiktok_scraper.py`: `load_page_with_retry` and session rotation -/

/-- Outcome of one attempt body of `load_page_with_retry`: the readiness
check returned `True`, it returned `False`, or the navigation call
(`driver.get`) threw. -/
inductive AttemptOutcome where
  | ready
  | notReady
  | navThrows
  deriving DecidableEq

/-- Loop body of `load_page_with_retry`: `a` is the current attempt index,
the fuel is `max_retries - a`.  The second component counts calls to
`rotate_browser_session`.  `attempt < max_retries - 1` is `1 ≤ fuel - 1`. -/
def load_page_with_retry_aux (outs : ℕ → AttemptOutcome) : ℕ → ℕ → Bool × ℕ
  | _, 0 => (false, 0)
  | a, fuel + 1 =>
    match outs a with
    | AttemptOutcome.ready => (true, 0)
    | _ =>
      if fuel = 0 then (false, 0)
      else
        let r := load_page_with_retry_aux outs (a + 1) fuel
        (r.1, r.2 + 1)

/-- `TikTokScraper.load_page_with_retry` (tiktok_scraper.py, lines 84-109):
the outcome of attempt `i` is `outs i`; returns the Python return value and
the number of session rotations performed. -/
def load_page_with_retry (outs : ℕ → AttemptOutcome) (maxRetries : ℕ) : Bool × ℕ :=
  load_page_with_retry_aux outs 0 maxRetries

/-! ## `tiktok_scraper.py`: `_convert_count_to_number` -/

/-- `TikTokScraper._convert_count_to_number` (tiktok_scraper.py, lines
487-514).  Steps, in source order: empty input returns 0; spaces and commas
are removed and the ends stripped; the sentinel `'share'`
(case-insensitively) returns 0; the text is uppercased; a `K`/`M`/`B`
anywhere multiplies the float value of the text with that letter removed by
1e3/1e6/1e9; otherwise all non-digit non-dot characters are stripped and the
rest parsed; every parse failure (`ValueError`) yields 0. -/
def convert_count_to_number (s : String) : ℚ :=
  if s.data.isEmpty then 0
  else
    let t := pyStrip (s.data.filter (fun c => c ≠ ' ' ∧ c ≠ ','))
    if t.map Char.toLower = "share".data then 0
    else
      let u := t.map Char.toUpper
      if 'K' ∈ u then ((pyFloat (u.filter (fun c => c ≠ 'K'))).getD 0) * 1000
      else if 'M' ∈ u then ((pyFloat (u.filter (fun c => c ≠ 'M'))).getD 0) * 1000000
      else if 'B' ∈ u then ((pyFloat (u.filter (fun c => c ≠ 'B'))).getD 0) * 1000000000
      else
        let cleaned := u.filter (fun c => c.isDigit ∨ c = '.')
        if cleaned.isEmpty then 0 else (pyFloat cleaned).getD 0

/-! ## `tiktok_scraper.py`: `_extract_timestamp_from_video_id` -/

/-- Binary value of a most-significant-bit-first bit list, as computed by
Python's `int(bits, 2)`. -/
def fromBits (l : List ℕ) : ℕ := l.foldl (fun a b => 2 * a + b) 0

/-- Model of Python's `bin(n)[2:]` for `n : ℕ`: the bits of `n`, most
significant first, with `bin(0)[2:] = "0"`. -/
def pyBin (n : ℕ) : List ℕ :=
  if n = 0 then [0] else (Nat.digits 2 n).reverse

/-- Model of Python's `str.zfill(64)`: left-pad with zeros to length 64. -/
def zfill64 (l : List ℕ) : List ℕ := List.replicate (64 - l.length) 0 ++ l

/-- Numeric core of `_extract_timestamp_from_video_id`:
`int(bin(n)[2:].zfill(64)[:32], 2)`. -/
def extract_timestamp_nat (n : ℕ) : ℕ :=
  fromBits ((zfill64 (pyBin n)).take 32)

/-- `TikTokScraper._extract_timestamp_from_video_id` (tiktok_scraper.py,
lines 548-565): parse the id, take the high bits, render the epoch seconds;
any exception (in particular a non-numeric id failing `int`) yields `None`. -/
def extract_timestamp_from_video_id (s : String) : Option String :=
  match pyInt s.data with
  | none => none
  | some n => some (formatTimestamp (extract_timestamp_nat n))

/-! ## `tiktok_scraper.py`: video freshness and the batch-scan loop -/

/-- Hours a video may be old and still count as new (config.py,
`NEW_VIDEO_THRESHOLD`). -/
def NEW_VIDEO_THRESHOLD : ℚ := 10

/-- The `is_new` computation of `TikTokScraper._extract_video_data`
(tiktok_scraper.py, lines 294-311): default `True`; if a posting time is
present and parses, new iff its age in hours is at most the threshold; a
parse failure leaves the default. -/
def video_is_new (postingTime : Option String) (now : ℤ) (threshold : ℚ) : Bool :=
  match postingTime with
  | none => true
  | some s =>
    match parseDateTime s with
    | none => true
    | some t => decide ((((now - t : ℤ) : ℚ) / 3600) ≤ threshold)

/-- The extracted flags of one video record. -/
structure VData where
  isNew : Bool
  isPinned : Bool
  deriving DecidableEq

/-- One `div[data-e2e="user-post-item"]` element of the batch: its
`data-video-id` and the result of `_extract_video_data` on it (`none` models
an extraction error returning `None`). -/
structure PostElem where
  videoId : ℕ
  extract : Option VData
  deriving DecidableEq

/-- One appended entry of the `videos` list. -/
structure VRecord where
  videoId : ℕ
  data : VData
  deriving DecidableEq

/-- Stop test of the scan loop (tiktok_scraper.py, line 185):
`not video_data['is_new'] and not video_data['is_pinned']`. -/
def stop_condition (d : VData) : Bool := !d.isNew && !d.isPinned

/-- The inner element loop of `TikTokScraper.scrape_recent_videos`
(tiktok_scraper.py, lines 169-189) over one batch of elements: `videos` is
the accumulated record list (deduplication key set), `ex` is
`EXCLUDE_PINNED_VIDEOS`.  Returns the final record list and the ids of the
elements on which `_extract_video_data` was invoked, in order. -/
def scan_video_batch (ex : Bool) : List VRecord → List PostElem → List VRecord × List ℕ
  | videos, [] => (videos, [])
  | videos, e :: rest =>
    if e.videoId ∈ videos.map VRecord.videoId then
      scan_video_batch ex videos rest
    else
      match e.extract with
      | none =>
        let r := scan_video_batch ex videos rest
        (r.1, e.videoId :: r.2)
      | some d =>
        if ex && d.isPinned then
          let r := scan_video_batch ex videos rest
          (r.1, e.videoId :: r.2)
        else
          if stop_condition d then (videos ++ [⟨e.videoId, d⟩], [e.videoId])
          else
            let r := scan_video_batch ex (videos ++ [⟨e.videoId, d⟩]) rest
            (r.1, e.videoId :: r.2)

/-! ## `tiktok_scraper.py` / `main.py`: account-level metrics -/

/-- `TikTokScraper._extract_follower_count` / `_extract_total_likes`
(tiktok_scraper.py, lines 207-229): the element's text converted, or 0 when
the element is absent or lookup throws. -/
def extract_count_field (t : Option String) : ℚ :=
  match t with
  | none => 0
  | some s => convert_count_to_number s

/-- Environment of one `scrape_account_metrics` call: the outcome stream of
its page-load attempts and the raw texts of the two count elements (`none`
models a missing element). -/
structure AccountEnv where
  loadOutcomes : ℕ → AttemptOutcome
  followerText : Option String
  likesText : Option String

/-- The numeric fields of an account-metrics record (the date/name string
fields are skipped by the zero-validation and carry no logic). -/
structure AccountMetrics where
  follower_count : ℚ
  total_likes : ℚ
  deriving DecidableEq

/-- `TikTokScraper.scrape_account_metrics` (tiktok_scraper.py, lines
119-147): load the page with up to 3 attempts, extract the two counts,
validate that no numeric field is zero; `None` on load failure or failed
validation. -/
def scrape_account_metrics (env : AccountEnv) : Option AccountMetrics :=
  if (load_page_with_retry env.loadOutcomes 3).1 = false then none
  else
    let f := extract_count_field env.followerText
    let l := extract_count_field env.likesText
    if f ≠ 0 ∧ l ≠ 0 then some ⟨f, l⟩ else none

/-- Per-account actions of `run_scraper` relevant to the metrics path. -/
inductive RunAction where
  | metricsAttempt
  | accountSkipped
  | videosStage
  deriving DecidableEq

/-- The account-metrics portion of `run_scraper` (main.py, lines 60-75):
one call to `scrape_account_metrics`; on `None` the account is skipped
(`continue`), otherwise the run proceeds to the videos stage. -/
def run_scraper_account (env : AccountEnv) : List RunAction :=
  RunAction.metricsAttempt ::
    (match scrape_account_metrics env with
     | none => [RunAction.accountSkipped]
     | some _ => [RunAction.videosStage])

/-! ## `tiktok_scraper.py`: session rotation as an event trace -/

/-- Browser-process lifecycle events. -/
inductive BrowserEv where
  | create
  | destroy
  deriving DecidableEq

/-- Live-handle count after an event. -/
def applyEv (n : ℕ) : BrowserEv → ℕ
  | BrowserEv.create => n + 1
  | BrowserEv.destroy => n - 1

/-- Live-handle count after a list of events, starting from `n`. -/
def liveFrom (n : ℕ) (l : List BrowserEv) : ℕ := l.foldl applyEv n

/-- Events of `TikTokScraper.cleanup` (tiktok_scraper.py, lines 111-117):
quit the held driver if one is live. -/
def cleanup_events (live : Bool) : List BrowserEv :=
  if live then [BrowserEv.destroy] else []

/-- Session-management operations the scraper performs on its single driver
slot. -/
inductive SessionCmd where
  | rotate
  | cleanupCmd
  deriving DecidableEq

/-- One step of the session controller: `rotate_browser_session`
(tiktok_scraper.py, lines 77-82) is `cleanup` followed by `start_browser`
(one `create`); `cleanup` alone quits.  Returns the new liveness of the held
handle and the emitted events, in execution order. -/
def stepSessionCmd (live : Bool) : SessionCmd → Bool × List BrowserEv
  | SessionCmd.rotate => (true, cleanup_events live ++ [BrowserEv.create])
  | SessionCmd.cleanupCmd => (false, cleanup_events live)

/-- Event trace of a sequence of session commands. -/
def runSessionCmds : Bool → List SessionCmd → List BrowserEv
  | _, [] => []
  | live, c :: cs =>
    let s := stepSessionCmd live c
    s.2 ++ runSessionCmds s.1 cs

/-- Final liveness after a sequence of session commands. -/
def finalLive : Bool → List SessionCmd → Bool
  | live, [] => live
  | live, c :: cs => finalLive (stepSessionCmd live c).1 cs

/-! ## `browser_setup.py`: session creation -/

/-- The fallible steps of `BrowserSetup.create_human_browser` and
`BrowserSetup.add_human_behavior`, in execution order. -/
inductive SetupStep where
  | chromeStart
  | pageLoadTimeoutSet
  | stealthApply
  | cdpUserAgentOverride
  | readyStateScript
  | behaviorScripts
  deriving DecidableEq

/-- `BrowserSetup.create_human_browser` (browser_setup.py, lines 64-102):
all five steps run inside one `try` whose handler prints and re-raises, so
the first failing step propagates. -/
def create_human_browser (fails : SetupStep → Bool) : Except SetupStep Unit :=
  if fails SetupStep.chromeStart then Except.error SetupStep.chromeStart
  else if fails SetupStep.pageLoadTimeoutSet then Except.error SetupStep.pageLoadTimeoutSet
  else if fails SetupStep.stealthApply then Except.error SetupStep.stealthApply
  else if fails SetupStep.cdpUserAgentOverride then Except.error SetupStep.cdpUserAgentOverride
  else if fails SetupStep.readyStateScript then Except.error SetupStep.readyStateScript
  else Except.ok ()

/-- `BrowserSetup.add_human_behavior` (browser_setup.py, lines 104-171): the
behavior scripts run inside a `try` whose handler only prints, so a failure
is swallowed. -/
def add_human_behavior (fails : SetupStep → Bool) : Except SetupStep Unit :=
  match (if fails SetupStep.behaviorScripts then Except.error SetupStep.behaviorScripts
         else (Except.ok () : Except SetupStep Unit)) with
  | Except.error _ => Except.ok ()
  | Except.ok _ => Except.ok ()

/-- `TikTokScraper.start_browser` (tiktok_scraper.py, lines 29-34):
`create_human_browser` then `add_human_behavior`. -/
def start_browser (fails : SetupStep → Bool) : Except SetupStep Unit := do
  create_human_browser fails
  add_human_behavior fails

/-! ## Auxiliary definitions for the claim statements -/

/-- Every intermediate live-handle count along the event list, starting from
`n`, stays at most 1. -/
def PrefixBounded (n : ℕ) : List BrowserEv → Prop
  | [] => n ≤ 1
  | e :: t => n ≤ 1 ∧ PrefixBounded (applyEv n e) t

/-- A page on which no content indicator matches and only the captcha
container is present. -/
def challengeOnlyPage : PageState :=
  ⟨false, false, false, false, false, true, false, false⟩

/-- A page on which nothing at all matches. -/
def blankPage : PageState :=
  ⟨false, false, false, false, false, false, false, false⟩

/-- The same page with all challenge-style elements removed. -/
def clearChallenge (p : PageState) : PageState :=
  { p with verificationBanner := false, captchaContainer := false,
           verificationIframe := false }

/-- An account page that loads fine but whose follower-count element is
missing, so the extracted follower count is 0. -/
def zeroMetricsEnv : AccountEnv :=
  ⟨fun _ => AttemptOutcome.ready, none, some "5"⟩

/-- The characters an unsigned decimal numeral may consist of. -/
def numeralChars : List Char :=
  ['0', '1', '2', '3', '4', '5', '6', '7', '8', '9', '.']

/-! ## Helper lemmas: `load_page_with_retry` -/

theorem load_page_with_retry_aux_step (outs : ℕ → AttemptOutcome) (a f : ℕ)
    (h : outs a ≠ AttemptOutcome.ready) :
    load_page_with_retry_aux outs a (f + 1) =
      if f = 0 then (false, 0)
      else ((load_page_with_retry_aux outs (a + 1) f).1,
            (load_page_with_retry_aux outs (a + 1) f).2 + 1) := by
  cases houts : outs a with
  | ready => exact absurd houts h
  | notReady => simp [load_page_with_retry_aux, houts]
  | navThrows => simp [load_page_with_retry_aux, houts]

theorem load_page_with_retry_aux_all_fail (outs : ℕ → AttemptOutcome) :
    ∀ (fuel a : ℕ), 1 ≤ fuel →
      (∀ i, a ≤ i → i < a + fuel → outs i ≠ AttemptOutcome.ready) →
      load_page_with_retry_aux outs a fuel = (false, fuel - 1) := by
  intro fuel
  induction fuel with
  | zero => intro a h; exact absurd h (by omega)
  | succ f ih =>
    intro a _ h
    rw [load_page_with_retry_aux_step outs a f (h a le_rfl (by omega))]
    by_cases hf0 : f = 0
    · subst hf0; simp
    · rw [if_neg hf0, ih (a + 1) (by omega) (fun i h1 h2 => h i (by omega) (by omega))]
      simp only [Prod.mk.injEq]
      exact ⟨trivial, by omega⟩

theorem load_page_with_retry_aux_congr (outs outs' : ℕ → AttemptOutcome)
    (h : ∀ i, outs i = AttemptOutcome.ready ↔ outs' i = AttemptOutcome.ready) :
    ∀ (fuel a : ℕ),
      load_page_with_retry_aux outs a fuel = load_page_with_retry_aux outs' a fuel := by
  intro fuel
  induction fuel with
  | zero => intro a; rfl
  | succ f ih =>
    intro a
    by_cases hr : outs a = AttemptOutcome.ready
    · have hr' := (h a).mp hr
      simp [load_page_with_retry_aux, hr, hr']
    · have hr' : outs' a ≠ AttemptOutcome.ready := fun hh => hr ((h a).mpr hh)
      rw [load_page_with_retry_aux_step outs a f hr,
          load_page_with_retry_aux_step outs' a f hr', ih]

/-! ## Helper lemmas: session-rotation traces -/

theorem prefixBounded_le (n : ℕ) (l : List BrowserEv) (h : PrefixBounded n l) : n ≤ 1 := by
  cases l with
  | nil => exact h
  | cons e t => exact h.1

theorem prefixBounded_append (l1 l2 : List BrowserEv) :
    ∀ n, PrefixBounded n (l1 ++ l2) ↔
      PrefixBounded n l1 ∧ PrefixBounded (liveFrom n l1) l2 := by
  induction l1 with
  | nil =>
    intro n
    constructor
    · intro h; exact ⟨prefixBounded_le n l2 h, h⟩
    · intro h; exact h.2
  | cons e t ih =>
    intro n
    constructor
    · intro h
      have h2 := (ih (applyEv n e)).mp h.2
      exact ⟨⟨h.1, h2.1⟩, by simpa [liveFrom] using h2.2⟩
    · intro h
      refine ⟨h.1.1, (ih (applyEv n e)).mpr ⟨h.1.2, ?_⟩⟩
      simpa [liveFrom] using h.2

theorem prefixBounded_take (l : List BrowserEv) :
    ∀ n, PrefixBounded n l → ∀ k, liveFrom n (l.take k) ≤ 1 := by
  induction l with
  | nil => intro n h k; simpa [liveFrom] using h
  | cons e t ih =>
    intro n h k
    cases k with
    | zero => simpa [liveFrom] using h.1
    | succ k' => simpa [liveFrom] using ih (applyEv n e) h.2 k'

theorem runSessionCmds_prefixBounded :
    ∀ (cmds : List SessionCmd) (live : Bool),
      PrefixBounded (if live then 1 else 0) (runSessionCmds live cmds) := by
  intro cmds
  induction cmds with
  | nil => intro live; cases live <;> simp [runSessionCmds, PrefixBounded]
  | cons c cs ih =>
    intro live
    cases c with
    | rotate =>
      cases live <;>
        simpa [runSessionCmds, stepSessionCmd, cleanup_events, prefixBounded_append,
               PrefixBounded, applyEv, liveFrom] using ih true
    | cleanupCmd =>
      cases live <;>
        simpa [runSessionCmds, stepSessionCmd, cleanup_events, prefixBounded_append,
               PrefixBounded, applyEv, liveFrom] using ih false

/-! ## Helper lemmas: `execute_with_retry` -/

theorem execute_with_retry_aux_ok {α : Type} (op : ℕ → Except String α) (base : ℚ)
    (jit : ℕ → ℚ) (i fuel : ℕ) (last : String) (v : α)
    (h : op i = Except.ok v) (hf : 1 ≤ fuel) :
    execute_with_retry_aux op base jit i fuel last = (Except.ok v, [], 1) := by
  cases fuel with
  | zero => exact absurd hf (by omega)
  | succ f => simp [execute_with_retry_aux, h]

theorem execute_with_retry_aux_fatal {α : Type} (op : ℕ → Except String α) (base : ℚ)
    (jit : ℕ → ℚ) (i fuel : ℕ) (last e : String)
    (h : op i = Except.error e) (hr : is_retryable_error e = false) (hf : 1 ≤ fuel) :
    execute_with_retry_aux op base jit i fuel last = (Except.error e, [], 1) := by
  cases fuel with
  | zero => exact absurd hf (by omega)
  | succ f => simp [execute_with_retry_aux, h, hr]

theorem execute_with_retry_aux_exhaust {α : Type} (op : ℕ → Except String α) (base : ℚ)
    (jit : ℕ → ℚ) (es : ℕ → String) :
    ∀ (fuel i : ℕ) (last : String), 1 ≤ fuel →
      (∀ j, j < fuel →
        op (i + j) = Except.error (es (i + j)) ∧ is_retryable_error (es (i + j)) = true) →
      execute_with_retry_aux op base jit i fuel last =
        (Except.error (es (i + fuel - 1)),
         (List.range fuel).map (fun j => base * 2 ^ (i + j) + jit (i + j)), fuel) := by
  intro fuel
  induction fuel with
  | zero => intro i last h; exact absurd h (by omega)
  | succ f ih =>
    intro i last _ h
    have h0 := h 0 (by omega)
    simp only [Nat.add_zero] at h0
    by_cases hf0 : f = 0
    · subst hf0
      have hr1 : List.range 1 = [0] := rfl
      simp [execute_with_retry_aux, h0.1, h0.2, hr1]
    · have hrec := ih (i + 1) (es i) (by omega)
        (fun j hj => by
          have := h (j + 1) (by omega)
          constructor
          · have e1 : i + (j + 1) = i + 1 + j := by omega
            rw [e1] at this; exact this.1
          · have e1 : i + (j + 1) = i + 1 + j := by omega
            rw [e1] at this; exact this.2)
      simp only [execute_with_retry_aux, h0.1, h0.2, if_true, hrec]
      have hidx : i + 1 + f - 1 = i + (f + 1) - 1 := by omega
      have hfun : (fun j => base * 2 ^ (i + 1 + j) + jit (i + 1 + j)) =
          (fun j => base * 2 ^ (i + (j + 1)) + jit (i + (j + 1))) := by
        funext j
        have e1 : i + 1 + j = i + (j + 1) := by omega
        rw [e1]
      rw [hidx, hfun, List.range_succ_eq_map]
      simp [List.map_map, Function.comp]

theorem execute_with_retry_aux_recover {α : Type} (op : ℕ → Except String α) (base : ℚ)
    (jit : ℕ → ℚ) (es : ℕ → String) (v : α) :
    ∀ (k fuel i : ℕ) (last : String), k < fuel →
      (∀ j, j < k →
        op (i + j) = Except.error (es (i + j)) ∧ is_retryable_error (es (i + j)) = true) →
      op (i + k) = Except.ok v →
      execute_with_retry_aux op base jit i fuel last =
        (Except.ok v, (List.range k).map (fun j => base * 2 ^ (i + j) + jit (i + j)), k + 1) := by
  intro k
  induction k with
  | zero =>
    intro fuel i last hk h hok
    simp only [Nat.add_zero] at hok
    simp [execute_with_retry_aux_ok op base jit i fuel last v hok (by omega)]
  | succ k' ih =>
    intro fuel i last hk h hok
    cases fuel with
    | zero => exact absurd hk (by omega)
    | succ f =>
      have h0 := h 0 (by omega)
      simp only [Nat.add_zero] at h0
      have hrec := ih f (i + 1) (es i) (by omega)
        (fun j hj => by
          have := h (j + 1) (by omega)
          have e1 : i + (j + 1) = i + 1 + j := by omega
          rw [e1] at this
          exact this)
        (by
          have e1 : i + (k' + 1) = i + 1 + k' := by omega
          rw [e1] at hok
          exact hok)
      simp only [execute_with_retry_aux, h0.1, h0.2, if_true, hrec]
      have hfun : (fun j => base * 2 ^ (i + 1 + j) + jit (i + 1 + j)) =
          (fun j => base * 2 ^ (i + (j + 1)) + jit (i + (j + 1))) := by
        funext j
        have e1 : i + 1 + j = i + (j + 1) := by omega
        rw [e1]
      rw [hfun, List.range_succ_eq_map]
      simp [List.map_map, Function.comp]

/-! ## Helper lemmas: the batch-scan loop -/

theorem scan_step_dup (ex : Bool) (videos : List VRecord) (p : PostElem)
    (rest : List PostElem) (h : p.videoId ∈ videos.map VRecord.videoId) :
    scan_video_batch ex videos (p :: rest) = scan_video_batch ex videos rest := by
  simp [scan_video_batch, h]

theorem scan_step_extract_fail (ex : Bool) (videos : List VRecord) (p : PostElem)
    (rest : List PostElem) (h : p.videoId ∉ videos.map VRecord.videoId)
    (he : p.extract = none) :
    scan_video_batch ex videos (p :: rest) =
      ((scan_video_batch ex videos rest).1,
       p.videoId :: (scan_video_batch ex videos rest).2) := by
  simp [scan_video_batch, h, he]

theorem scan_step_excluded (ex : Bool) (videos : List VRecord) (p : PostElem)
    (rest : List PostElem) (d : VData) (h : p.videoId ∉ videos.map VRecord.videoId)
    (he : p.extract = some d) (hx : (ex && d.isPinned) = true) :
    scan_video_batch ex videos (p :: rest) =
      ((scan_video_batch ex videos rest).1,
       p.videoId :: (scan_video_batch ex videos rest).2) := by
  simp [scan_video_batch, h, he, hx]

theorem scan_step_stop (ex : Bool) (videos : List VRecord) (p : PostElem)
    (rest : List PostElem) (d : VData) (h : p.videoId ∉ videos.map VRecord.videoId)
    (he : p.extract = some d) (hx : (ex && d.isPinned) = false)
    (hs : stop_condition d = true) :
    scan_video_batch ex videos (p :: rest) = (videos ++ [⟨p.videoId, d⟩], [p.videoId]) := by
  simp [scan_video_batch, h, he, hx, hs]

theorem scan_step_continue (ex : Bool) (videos : List VRecord) (p : PostElem)
    (rest : List PostElem) (d : VData) (h : p.videoId ∉ videos.map VRecord.videoId)
    (he : p.extract = some d) (hx : (ex && d.isPinned) = false)
    (hs : stop_condition d = false) :
    scan_video_batch ex videos (p :: rest) =
      ((scan_video_batch ex (videos ++ [⟨p.videoId, d⟩]) rest).1,
       p.videoId :: (scan_video_batch ex (videos ++ [⟨p.videoId, d⟩]) rest).2) := by
  simp [scan_video_batch, h, he, hx, hs]

theorem scan_video_batch_stop_lemma (ex : Bool) (e : PostElem) (d : VData)
    (hd : e.extract = some d) (hnew : d.isNew = false) (hpin : d.isPinned = false) :
    ∀ (pre post : List PostElem) (videos : List VRecord),
      e.videoId ∉ videos.map VRecord.videoId →
      e.videoId ∉ pre.map PostElem.videoId →
      scan_video_batch ex videos (pre ++ e :: post) =
        scan_video_batch ex videos (pre ++ [e]) := by
  have hstop : stop_condition d = true := by simp [stop_condition, hnew, hpin]
  intro pre
  induction pre with
  | nil =>
    intro post videos hv _
    simp only [List.nil_append]
    rw [scan_step_stop ex videos e post d hv hd (by simp [hpin]) hstop,
        scan_step_stop ex videos e [] d hv hd (by simp [hpin]) hstop]
  | cons p pre' ih =>
    intro post videos hv hpre
    have hne1 : e.videoId ≠ p.videoId := by
      intro hEq; exact hpre (by simp [hEq])
    have hne2 : e.videoId ∉ pre'.map PostElem.videoId := by
      intro hIn; exact hpre (by simp [hIn])
    simp only [List.cons_append]
    by_cases hdup : p.videoId ∈ videos.map VRecord.videoId
    · rw [scan_step_dup ex videos p _ hdup, scan_step_dup ex videos p _ hdup]
      exact ih post videos hv hne2
    · cases hpe : p.extract with
      | none =>
        rw [scan_step_extract_fail ex videos p _ hdup hpe,
            scan_step_extract_fail ex videos p _ hdup hpe,
            ih post videos hv hne2]
      | some dp =>
        by_cases hx : (ex && dp.isPinned) = true
        · rw [scan_step_excluded ex videos p _ dp hdup hpe hx,
              scan_step_excluded ex videos p _ dp hdup hpe hx,
              ih post videos hv hne2]
        · have hx' : (ex && dp.isPinned) = false := by simpa using hx
          cases hsp : stop_condition dp with
          | true =>
            rw [scan_step_stop ex videos p _ dp hdup hpe hx' hsp,
                scan_step_stop ex videos p _ dp hdup hpe hx' hsp]
          | false =>
            have hv' : e.videoId ∉
                (videos ++ [VRecord.mk p.videoId dp]).map VRecord.videoId := by
              simp only [List.map_append, List.mem_append]
              rintro (h1 | h2)
              · exact hv h1
              · simp at h2; exact hne1 h2
            rw [scan_step_continue ex videos p _ dp hdup hpe hx' hsp,
                scan_step_continue ex videos p _ dp hdup hpe hx' hsp,
                ih post (videos ++ [VRecord.mk p.videoId dp]) hv' hne2]

theorem scan_video_batch_all_lemma (ex : Bool) :
    ∀ (batch : List PostElem) (videos : List VRecord),
      (∀ e ∈ batch, ∀ d, e.extract = some d → stop_condition d = false) →
      (batch.map PostElem.videoId).Nodup →
      (∀ e ∈ batch, e.videoId ∉ videos.map VRecord.videoId) →
      (scan_video_batch ex videos batch).2 = batch.map PostElem.videoId := by
  intro batch
  induction batch with
  | nil => intro videos _ _ _; rfl
  | cons p rest ih =>
    intro videos hns hnd hfresh
    have hp : p.videoId ∉ videos.map VRecord.videoId := hfresh p (by simp)
    have hnd' : (∀ x ∈ rest, ¬ x.videoId = p.videoId) ∧
        (rest.map PostElem.videoId).Nodup := by simpa using hnd
    have hrest_ns : ∀ e ∈ rest, ∀ d, e.extract = some d → stop_condition d = false :=
      fun e he' d hd => hns e (by simp [he']) d hd
    cases he : p.extract with
    | none =>
      rw [scan_step_extract_fail ex videos p rest hp he]
      simp [ih videos hrest_ns hnd'.2 (fun e he' => hfresh e (by simp [he']))]
    | some d =>
      by_cases hx : (ex && d.isPinned) = true
      · rw [scan_step_excluded ex videos p rest d hp he hx]
        simp [ih videos hrest_ns hnd'.2 (fun e he' => hfresh e (by simp [he']))]
      · have hs : stop_condition d = false := hns p (by simp) d he
        rw [scan_step_continue ex videos p rest d hp he (by simpa using hx) hs]
        have hfresh' : ∀ e ∈ rest,
            e.videoId ∉ (videos ++ [VRecord.mk p.videoId d]).map VRecord.videoId := by
          intro e he'
          simp only [List.map_append, List.mem_append]
          rintro (h1 | h2)
          · exact hfresh e (by simp [he']) h1
          · simp at h2
            exact hnd'.1 e he' h2
        simp [ih (videos ++ [VRecord.mk p.videoId d]) hrest_ns hnd'.2 hfresh']

theorem scan_video_batch_pinned_excluded_lemma :
    ∀ (batch : List PostElem) (videos : List VRecord) (r : VRecord),
      r ∈ (scan_video_batch true videos batch).1 →
      r ∈ videos ∨ r.data.isPinned = false := by
  intro batch
  induction batch with
  | nil => intro videos r hr; exact Or.inl hr
  | cons p rest ih =>
    intro videos r hr
    by_cases hdup : p.videoId ∈ videos.map VRecord.videoId
    · rw [scan_step_dup true videos p rest hdup] at hr
      exact ih videos r hr
    · cases he : p.extract with
      | none =>
        rw [scan_step_extract_fail true videos p rest hdup he] at hr
        exact ih videos r hr
      | some d =>
        by_cases hx : (true && d.isPinned) = true
        · rw [scan_step_excluded true videos p rest d hdup he hx] at hr
          exact ih videos r hr
        · have hpin : d.isPinned = false := by simpa using hx
          cases hsp : stop_condition d with
          | true =>
            rw [scan_step_stop true videos p rest d hdup he (by simp [hpin]) hsp] at hr
            simp only [List.mem_append, List.mem_singleton] at hr
            rcases hr with h1 | h2
            · exact Or.inl h1
            · subst h2; exact Or.inr hpin
          | false =>
            rw [scan_step_continue true videos p rest d hdup he (by simp [hpin]) hsp] at hr
            rcases ih (videos ++ [⟨p.videoId, d⟩]) r hr with h1 | h2
            · simp only [List.mem_append, List.mem_singleton] at h1
              rcases h1 with h3 | h4
              · exact Or.inl h3
              · subst h4; exact Or.inr hpin
            · exact Or.inr h2

/-! ## Helper lemmas: `convert_count_to_number` -/

theorem numeralChar_props (c : Char) (h : c ∈ numeralChars) :
    c ≠ ' ' ∧ c ≠ ',' ∧ c.isWhitespace = false ∧ c.toUpper = c ∧ c.toLower = c ∧
      c ≠ 'K' ∧ c ≠ 'M' ∧ c ≠ 'B' := by
  simp only [numeralChars, List.mem_cons, List.not_mem_nil, or_false] at h
  rcases h with rfl | rfl | rfl | rfl | rfl | rfl | rfl | rfl | rfl | rfl | rfl <;> decide

theorem filter_space_comma_numeral (l : List Char) (h : ∀ c ∈ l, c ∈ numeralChars) :
    l.filter (fun c => c ≠ ' ' ∧ c ≠ ',') = l := by
  rw [List.filter_eq_self]
  intro c hc
  have hp := numeralChar_props c (h c hc)
  simp [hp.1, hp.2.1]

theorem dropWhile_no_ws (l : List Char) (h : ∀ c ∈ l, c.isWhitespace = false) :
    l.dropWhile Char.isWhitespace = l := by
  cases l with
  | nil => rfl
  | cons c t => simp [List.dropWhile_cons, h c (by simp)]

theorem pyStrip_no_ws (l : List Char) (h : ∀ c ∈ l, c.isWhitespace = false) :
    pyStrip l = l := by
  unfold pyStrip
  rw [dropWhile_no_ws l h,
      dropWhile_no_ws l.reverse (fun c hc => h c (List.mem_reverse.mp hc)),
      List.reverse_reverse]

theorem map_toUpper_numeral (l : List Char) (h : ∀ c ∈ l, c ∈ numeralChars) :
    l.map Char.toUpper = l := by
  induction l with
  | nil => rfl
  | cons c t ih =>
    rw [List.map_cons, (numeralChar_props c (h c (by simp))).2.2.2.1,
        ih (fun x hx => h x (by simp [hx]))]

theorem map_toLower_numeral (l : List Char) (h : ∀ c ∈ l, c ∈ numeralChars) :
    l.map Char.toLower = l := by
  induction l with
  | nil => rfl
  | cons c t ih =>
    rw [List.map_cons, (numeralChar_props c (h c (by simp))).2.2.2.2.1,
        ih (fun x hx => h x (by simp [hx]))]

theorem lower_append_ne_share (l : List Char) (suf : Char)
    (hsuf : suf.toLower ∉ "share".data) :
    (l ++ [suf]).map Char.toLower ≠ "share".data := by
  intro hEq
  have hmem : suf.toLower ∈ (l ++ [suf]).map Char.toLower := by simp
  rw [hEq] at hmem
  exact hsuf hmem

theorem filter_ne_append_single (l : List Char) (x : Char) (h : ∀ c ∈ l, c ≠ x) :
    (l ++ [x]).filter (fun c => c ≠ x) = l := by
  rw [List.filter_append]
  have h1 : l.filter (fun c => c ≠ x) = l := by
    rw [List.filter_eq_self]
    intro c hc
    simp [h c hc]
  have h2 : [x].filter (fun c => c ≠ x) = [] := by simp
  rw [h1, h2, List.append_nil]

theorem not_mem_upper_append (l : List Char) (suf x : Char)
    (h : ∀ c ∈ l, c ≠ x) (hs : suf ≠ x) : x ∉ l ++ [suf] := by
  simp only [List.mem_append, List.mem_singleton]
  rintro (h1 | h2)
  · exact h x h1 rfl
  · exact hs h2.symm

theorem convert_preprocess (cs : List Char) (suf : Char)
    (hchars : ∀ c ∈ cs, c ∈ numeralChars)
    (hsp : suf ≠ ' ' ∧ suf ≠ ',' ∧ suf.isWhitespace = false) :
    pyStrip ((cs ++ [suf]).filter (fun c => c ≠ ' ' ∧ c ≠ ',')) = cs ++ [suf] := by
  have hfil : (cs ++ [suf]).filter (fun c => c ≠ ' ' ∧ c ≠ ',') = cs ++ [suf] := by
    rw [List.filter_append, filter_space_comma_numeral cs hchars]
    simp [hsp.1, hsp.2.1]
  rw [hfil]
  refine pyStrip_no_ws _ ?_
  intro c hc
  rcases List.mem_append.mp hc with h1 | h2
  · exact (numeralChar_props c (hchars c h1)).2.2.1
  · simp at h2; subst h2; exact hsp.2.2

theorem convert_suffix_K (cs : List Char) (q : ℚ) (suf : Char)
    (hsuf : suf = 'K' ∨ suf = 'k') (hchars : ∀ c ∈ cs, c ∈ numeralChars)
    (hq : pyFloat cs = some q) :
    convert_count_to_number (String.mk (cs ++ [suf])) = q * 1000 := by
  have hsp : suf ≠ ' ' ∧ suf ≠ ',' ∧ suf.isWhitespace = false := by
    rcases hsuf with rfl | rfl <;> exact ⟨by decide, by decide, by decide⟩
  have hstrip := convert_preprocess cs suf hchars hsp
  have hlow : (cs ++ [suf]).map Char.toLower ≠ "share".data := by
    refine lower_append_ne_share cs suf ?_
    rcases hsuf with rfl | rfl <;> decide
  have hup : (cs ++ [suf]).map Char.toUpper = cs ++ ['K'] := by
    rw [List.map_append, map_toUpper_numeral cs hchars]
    rcases hsuf with rfl | rfl <;> rfl
  have hKmem : 'K' ∈ cs ++ ['K'] := by simp
  have hKfil : (cs ++ ['K']).filter (fun c => c ≠ 'K') = cs :=
    filter_ne_append_single cs 'K'
      (fun c hc => (numeralChar_props c (hchars c hc)).2.2.2.2.2.1)
  simp only [convert_count_to_number, List.isEmpty_eq_true, List.append_eq_nil,
    and_false, if_false, hstrip, if_neg hlow, hup, if_pos hKmem, hKfil, hq,
    Option.getD_some]
  simp

theorem convert_suffix_M (cs : List Char) (q : ℚ) (suf : Char)
    (hsuf : suf = 'M' ∨ suf = 'm') (hchars : ∀ c ∈ cs, c ∈ numeralChars)
    (hq : pyFloat cs = some q) :
    convert_count_to_number (String.mk (cs ++ [suf])) = q * 1000000 := by
  have hsp : suf ≠ ' ' ∧ suf ≠ ',' ∧ suf.isWhitespace = false := by
    rcases hsuf with rfl | rfl <;> exact ⟨by decide, by decide, by decide⟩
  have hstrip := convert_preprocess cs suf hchars hsp
  have hlow : (cs ++ [suf]).map Char.toLower ≠ "share".data := by
    refine lower_append_ne_share cs suf ?_
    rcases hsuf with rfl | rfl <;> decide
  have hup : (cs ++ [suf]).map Char.toUpper = cs ++ ['M'] := by
    rw [List.map_append, map_toUpper_numeral cs hchars]
    rcases hsuf with rfl | rfl <;> rfl
  have hKnot : 'K' ∉ cs ++ ['M'] :=
    not_mem_upper_append cs 'M' 'K'
      (fun c hc => (numeralChar_props c (hchars c hc)).2.2.2.2.2.1) (by decide)
  have hMmem : 'M' ∈ cs ++ ['M'] := by simp
  have hMfil : (cs ++ ['M']).filter (fun c => c ≠ 'M') = cs :=
    filter_ne_append_single cs 'M'
      (fun c hc => (numeralChar_props c (hchars c hc)).2.2.2.2.2.2.1)
  simp only [convert_count_to_number, List.isEmpty_eq_true, List.append_eq_nil,
    and_false, if_false, hstrip, if_neg hlow, hup, if_neg hKnot, if_pos hMmem,
    hMfil, hq, Option.getD_some]
  simp

theorem convert_suffix_B (cs : List Char) (q : ℚ) (suf : Char)
    (hsuf : suf = 'B' ∨ suf = 'b') (hchars : ∀ c ∈ cs, c ∈ numeralChars)
    (hq : pyFloat cs = some q) :
    convert_count_to_number (String.mk (cs ++ [suf])) = q * 1000000000 := by
  have hsp : suf ≠ ' ' ∧ suf ≠ ',' ∧ suf.isWhitespace = false := by
    rcases hsuf with rfl | rfl <;> exact ⟨by decide, by decide, by decide⟩
  have hstrip := convert_preprocess cs suf hchars hsp
  have hlow : (cs ++ [suf]).map Char.toLower ≠ "share".data := by
    refine lower_append_ne_share cs suf ?_
    rcases hsuf with rfl | rfl <;> decide
  have hup : (cs ++ [suf]).map Char.toUpper = cs ++ ['B'] := by
    rw [List.map_append, map_toUpper_numeral cs hchars]
    rcases hsuf with rfl | rfl <;> rfl
  have hKnot : 'K' ∉ cs ++ ['B'] :=
    not_mem_upper_append cs 'B' 'K'
      (fun c hc => (numeralChar_props c (hchars c hc)).2.2.2.2.2.1) (by decide)
  have hMnot : 'M' ∉ cs ++ ['B'] :=
    not_mem_upper_append cs 'B' 'M'
      (fun c hc => (numeralChar_props c (hchars c hc)).2.2.2.2.2.2.1) (by decide)
  have hBmem : 'B' ∈ cs ++ ['B'] := by simp
  have hBfil : (cs ++ ['B']).filter (fun c => c ≠ 'B') = cs :=
    filter_ne_append_single cs 'B'
      (fun c hc => (numeralChar_props c (hchars c hc)).2.2.2.2.2.2.2)
  simp only [convert_count_to_number, List.isEmpty_eq_true, List.append_eq_nil,
    and_false, if_false, hstrip, if_neg hlow, hup, if_neg hKnot, if_neg hMnot,
    if_pos hBmem, hBfil, hq, Option.getD_some]
  simp

theorem ite_empty_pyFloat (l : List Char) :
    (if l.isEmpty then (0 : ℚ) else (pyFloat l).getD 0) = (pyFloat l).getD 0 := by
  cases l <;> rfl

theorem convert_fallback (s : String) (t : List Char)
    (ht : t = pyStrip (s.data.filter (fun c => c ≠ ' ' ∧ c ≠ ',')))
    (hne : s.data.isEmpty = false)
    (hshare : t.map Char.toLower ≠ "share".data)
    (hK : 'K' ∉ t.map Char.toUpper) (hM : 'M' ∉ t.map Char.toUpper)
    (hB : 'B' ∉ t.map Char.toUpper) :
    convert_count_to_number s =
      (pyFloat ((t.map Char.toUpper).filter (fun c => c.isDigit ∨ c = '.'))).getD 0 := by
  subst ht
  simp only [convert_count_to_number, hne, Bool.false_eq_true, if_false,
    if_neg hshare, if_neg hK, if_neg hM, if_neg hB]
  exact ite_empty_pyFloat _

/-! ## Helper lemmas: `extract_timestamp_from_video_id` -/

theorem fromBits_foldl (l : List ℕ) : ∀ a : ℕ,
    l.foldl (fun x b => 2 * x + b) a = a * 2 ^ l.length + fromBits l := by
  induction l with
  | nil => intro a; simp [fromBits]
  | cons x t ih =>
    intro a
    have hx : fromBits (x :: t) = x * 2 ^ t.length + fromBits t := by
      show List.foldl _ (2 * 0 + x) t = _
      rw [ih (2 * 0 + x)]
      ring
    simp only [List.foldl_cons, List.length_cons]
    rw [ih (2 * a + x), hx]
    ring

theorem fromBits_cons (x : ℕ) (t : List ℕ) :
    fromBits (x :: t) = x * 2 ^ t.length + fromBits t := by
  show List.foldl _ (2 * 0 + x) t = _
  rw [fromBits_foldl t (2 * 0 + x)]
  ring

theorem fromBits_append (l1 l2 : List ℕ) :
    fromBits (l1 ++ l2) = fromBits l1 * 2 ^ l2.length + fromBits l2 := by
  show List.foldl _ 0 (l1 ++ l2) = _
  rw [List.foldl_append]
  exact fromBits_foldl l2 _

theorem fromBits_lt (l : List ℕ) (h : ∀ b ∈ l, b < 2) :
    fromBits l < 2 ^ l.length := by
  induction l with
  | nil => simp [fromBits]
  | cons x t ih =>
    rw [fromBits_cons]
    have hx : x ≤ 1 := by have := h x (by simp); omega
    have ht := ih (fun b hb => h b (by simp [hb]))
    have hpow : x * 2 ^ t.length ≤ 2 ^ t.length := by
      calc x * 2 ^ t.length ≤ 1 * 2 ^ t.length := Nat.mul_le_mul_right _ hx
      _ = 2 ^ t.length := one_mul _
    simp only [List.length_cons, pow_succ]
    omega

theorem fromBits_replicate_zero (k : ℕ) : fromBits (List.replicate k 0) = 0 := by
  induction k with
  | zero => rfl
  | succ n ih => rw [List.replicate_succ, fromBits_cons, ih]; simp

theorem fromBits_reverse (l : List ℕ) : fromBits l.reverse = Nat.ofDigits 2 l := by
  induction l with
  | nil => rfl
  | cons x t ih =>
    rw [List.reverse_cons, fromBits_append, ih, Nat.ofDigits_cons]
    have h1 : fromBits [x] = x := by rw [fromBits_cons]; simp [fromBits]
    simp only [List.length_singleton, h1, pow_one]
    ring

theorem pyBin_fromBits (n : ℕ) : fromBits (pyBin n) = n := by
  by_cases h : n = 0
  · subst h; rfl
  · unfold pyBin
    rw [if_neg h, fromBits_reverse, Nat.ofDigits_digits]

theorem pyBin_bits_lt (n : ℕ) : ∀ b ∈ pyBin n, b < 2 := by
  intro b hb
  unfold pyBin at hb
  by_cases h : n = 0
  · subst h; simp at hb; omega
  · rw [if_neg h] at hb
    exact Nat.digits_lt_base (by norm_num) (List.mem_reverse.mp hb)

theorem pyBin_length_le (n : ℕ) (h : n < 2 ^ 64) : (pyBin n).length ≤ 64 := by
  unfold pyBin
  by_cases h0 : n = 0
  · subst h0; simp
  · rw [if_neg h0, List.length_reverse, Nat.digits_len 2 n (by norm_num) h0]
    have := (Nat.lt_pow_iff_log_lt (by norm_num) h0).mp h
    omega

theorem extract_timestamp_nat_eq (n : ℕ) (h : n < 2 ^ 64) :
    extract_timestamp_nat n = n / 2 ^ 32 := by
  have hlen : (zfill64 (pyBin n)).length = 64 := by
    unfold zfill64
    rw [List.length_append, List.length_replicate]
    have := pyBin_length_le n h
    omega
  have hfb : fromBits (zfill64 (pyBin n)) = n := by
    unfold zfill64
    rw [fromBits_append, fromBits_replicate_zero, pyBin_fromBits]
    ring
  have hsplit : zfill64 (pyBin n) =
      (zfill64 (pyBin n)).take 32 ++ (zfill64 (pyBin n)).drop 32 :=
    (List.take_append_drop 32 _).symm
  have hdlen : ((zfill64 (pyBin n)).drop 32).length = 32 := by
    rw [List.length_drop, hlen]
  have hdbits : ∀ b ∈ (zfill64 (pyBin n)).drop 32, b < 2 := by
    intro b hb
    have hbL := List.mem_of_mem_drop hb
    unfold zfill64 at hbL
    rcases List.mem_append.mp hbL with h1 | h2
    · have := List.eq_of_mem_replicate h1; omega
    · exact pyBin_bits_lt n b h2
  have hdlt : fromBits ((zfill64 (pyBin n)).drop 32) < 2 ^ 32 := by
    have := fromBits_lt _ hdbits
    rwa [hdlen] at this
  have hn : fromBits ((zfill64 (pyBin n)).take 32) * 2 ^ ((zfill64 (pyBin n)).drop 32).length +
      fromBits ((zfill64 (pyBin n)).drop 32) = n := by
    rw [← fromBits_append, ← hsplit, hfb]
  rw [hdlen] at hn
  unfold extract_timestamp_nat
  conv_rhs => rw [← hn,
    Nat.mul_comm (fromBits (List.take 32 (zfill64 (pyBin n)))) (2 ^ 32)]
  rw [Nat.mul_add_div (by positivity), Nat.div_eq_of_lt hdlt, Nat.add_zero]

/-! ## Claim theorems -/

/-- Claim C1: when every one of the `N ≥ 1` attempts either reports content
not loaded or throws in navigation, `load_page_with_retry` returns `False`
(without raising), performing exactly `N - 1` session rotations, and a
throwing navigation call is interchangeable with a non-ready check: the
result depends only on which attempts are ready. -/
theorem load_page_with_retry_exhaustion (outs outs' : ℕ → AttemptOutcome) (N : ℕ)
    (hN : 1 ≤ N) (hfail : ∀ i, i < N → outs i ≠ AttemptOutcome.ready)
    (hsim : ∀ i, outs i = AttemptOutcome.ready ↔ outs' i = AttemptOutcome.ready) :
    load_page_with_retry outs N = (false, N - 1) ∧
    load_page_with_retry outs N = load_page_with_retry outs' N := by
  constructor
  · exact load_page_with_retry_aux_all_fail outs N 0 hN (fun i _ h2 => hfail i (by omega))
  · exact load_page_with_retry_aux_congr outs outs' hsim N 0

/-- Claim C1 witness: three throwing attempts with `max_retries = 3` give
failure after exactly two rotations, identically to three non-ready checks. -/
theorem load_page_with_retry_exhaustion_witness :
    load_page_with_retry (fun _ => AttemptOutcome.navThrows) 3 = (false, 2) ∧
    load_page_with_retry (fun _ => AttemptOutcome.navThrows) 3 =
      load_page_with_retry (fun _ => AttemptOutcome.notReady) 3 :=
  load_page_with_retry_exhaustion _ _ 3 (by omega) (fun i _ => by simp)
    (fun i => by simp)

/-- Claim C3: `execute_with_retry` returns a successful invocation's value;
on a failure matching the retryable-infrastructure set it sleeps
`base_delay * 2 ^ attempt_index + uniform_random(0,1)` and retries, bounded
by `max_retries` total attempts, raising the last failure after exhaustion;
any other failure is re-raised immediately with zero sleeps and no further
attempts. -/
theorem execute_with_retry_spec {α : Type} (op : ℕ → Except String α) (base : ℚ)
    (jit : ℕ → ℚ) (N : ℕ) (hN : 1 ≤ N) :
    (∀ v, op 0 = Except.ok v →
        execute_with_retry op base jit N = (Except.ok v, [], 1)) ∧
    (∀ e, op 0 = Except.error e → is_retryable_error e = false →
        execute_with_retry op base jit N = (Except.error e, [], 1)) ∧
    (∀ es : ℕ → String,
        (∀ i, i < N → op i = Except.error (es i) ∧ is_retryable_error (es i) = true) →
        execute_with_retry op base jit N =
          (Except.error (es (N - 1)),
           (List.range N).map (fun i => base * 2 ^ i + jit i), N)) ∧
    (∀ (k : ℕ) (v : α) (es : ℕ → String), k < N →
        (∀ i, i < k → op i = Except.error (es i) ∧ is_retryable_error (es i) = true) →
        op k = Except.ok v →
        execute_with_retry op base jit N =
          (Except.ok v, (List.range k).map (fun i => base * 2 ^ i + jit i), k + 1)) := by
  refine ⟨?_, ?_, ?_, ?_⟩
  · intro v h
    exact execute_with_retry_aux_ok op base jit 0 N _ v h hN
  · intro e h hr
    exact execute_with_retry_aux_fatal op base jit 0 N _ e h hr hN
  · intro es h
    have := execute_with_retry_aux_exhaust op base jit es N 0
      "TypeError: last_exception is None" hN
      (fun j hj => by simpa using h j hj)
    simpa using this
  · intro k v es hk h hok
    have := execute_with_retry_aux_recover op base jit es v k N 0
      "TypeError: last_exception is None" hk
      (fun j hj => by simpa using h j hj) (by simpa using hok)
    simpa using this

/-- Claim C3 witness: two retryable failures then success returns the value
with exactly the two backoff sleeps and three attempts. -/
theorem execute_with_retry_spec_witness :
    execute_with_retry
        (fun i => if i < 2 then Except.error "invalid session id" else Except.ok 42)
        5 (fun _ => 0) 3 =
      (Except.ok 42, (List.range 2).map (fun i => (5 : ℚ) * 2 ^ i + 0), 3) :=
  (execute_with_retry_spec _ 5 _ 3 (by omega)).2.2.2 2 42
    (fun _ => "invalid session id") (by omega)
    (fun i hi =>
      ⟨by simp [hi], by show is_retryable_error "invalid session id" = true; decide⟩)
    rfl

/-- Claim C2 counterexample: on a page with zero content matches and a
captcha container present, the source's readiness check returns the same
plain `false` as on a fully blank page — there is no distinct BotChallenge
verdict, although the specification's detector would return one. -/
theorem check_content_loaded_no_challenge_verdict :
    specCheckReady challengeOnlyPage = Verdict.BotChallenge ∧
    check_content_loaded challengeOnlyPage = false ∧
    check_content_loaded challengeOnlyPage = check_content_loaded blankPage := by
  decide

/-- Claim C2 as amended: the readiness check returns Ready (`true`) iff its
script succeeds and at least 2 of the 4 content-indicator selectors match
(so exactly 1 is not ready), and its result never depends on the
challenge-style elements: the code never probes them and has no BotChallenge
verdict. -/
theorem check_content_loaded_quorum (p : PageState) :
    (check_content_loaded p = true ↔
      (p.scriptError = false ∧ 2 ≤ contentIndicatorCount p)) ∧
    check_content_loaded p = check_content_loaded (clearChallenge p) := by
  obtain ⟨a, b, c, d, e, f, g, h⟩ := p
  constructor
  · cases h <;> simp [check_content_loaded]
  · rfl

/-- Claim C4 counterexample: with a loadable page whose follower count
extracts to 0, the account-metrics attempt fails (`None`) and the account is
skipped with the metrics-level attempt having been made exactly once — it is
not retried at the account-metrics level. -/
theorem scrape_account_metrics_zero_not_retried :
    scrape_account_metrics zeroMetricsEnv = none ∧
    run_scraper_account zeroMetricsEnv =
      [RunAction.metricsAttempt, RunAction.accountSkipped] ∧
    ¬ 2 ≤ (run_scraper_account zeroMetricsEnv).count RunAction.metricsAttempt := by
  decide

/-- Claim C4 as amended: a zero required numeric field makes the whole
account-metrics attempt fail (`None`), and the caller then skips the account
immediately: exactly one account-metrics-level attempt is made, with no
retry at that level (retries exist only inside the attempt, at page-load
level). -/
theorem scrape_account_metrics_zero_abandoned (env : AccountEnv)
    (hload : (load_page_with_retry env.loadOutcomes 3).1 = true)
    (hzero : extract_count_field env.followerText = 0 ∨
             extract_count_field env.likesText = 0) :
    scrape_account_metrics env = none ∧
    run_scraper_account env = [RunAction.metricsAttempt, RunAction.accountSkipped] ∧
    (run_scraper_account env).count RunAction.metricsAttempt = 1 := by
  have hm : scrape_account_metrics env = none := by
    unfold scrape_account_metrics
    rw [hload]
    simp only [Bool.true_eq_false, if_false]
    rcases hzero with h | h <;>
      · rw [if_neg]
        rintro ⟨h1, h2⟩
        simp_all
  refine ⟨hm, ?_, ?_⟩ <;> simp [run_scraper_account, hm, List.count_cons]

/-- Claim C4 witness: the amended behavior at the concrete environment. -/
theorem scrape_account_metrics_zero_abandoned_witness :
    scrape_account_metrics zeroMetricsEnv = none ∧
    run_scraper_account zeroMetricsEnv =
      [RunAction.metricsAttempt, RunAction.accountSkipped] ∧
    (run_scraper_account zeroMetricsEnv).count RunAction.metricsAttempt = 1 :=
  scrape_account_metrics_zero_abandoned zeroMetricsEnv (by decide)
    (Or.inl (by decide))

/-- Claim C8 counterexample: a failing stealth script aborts
`create_human_browser` (its single `try` re-raises), so session creation
propagates an error even though the browser process itself started fine. -/
theorem create_human_browser_masking_failure_propagates :
    start_browser (fun s => decide (s = SetupStep.stealthApply)) =
      Except.error SetupStep.stealthApply ∧
    create_human_browser (fun s => decide (s = SetupStep.stealthApply)) =
      Except.error SetupStep.stealthApply :=
  ⟨rfl, rfl⟩

/-- Claim C8 as amended: session creation succeeds iff none of the steps of
`create_human_browser` (browser start, page-load-timeout set, stealth
script, CDP user-agent override, ready-state script) fails — a failure of
any of those propagates — while a failure of the post-creation
human-behavior scripts is swallowed and never propagates. -/
theorem start_browser_error_propagation (fails : SetupStep → Bool) :
    (start_browser fails = Except.ok () ↔
      (fails SetupStep.chromeStart = false ∧
       fails SetupStep.pageLoadTimeoutSet = false ∧
       fails SetupStep.stealthApply = false ∧
       fails SetupStep.cdpUserAgentOverride = false ∧
       fails SetupStep.readyStateScript = false)) ∧
    ∀ e, start_browser fails = Except.error e → e ≠ SetupStep.behaviorScripts := by
  have hb : add_human_behavior fails = Except.ok () := by
    unfold add_human_behavior
    cases fails SetupStep.behaviorScripts <;> simp
  cases h1 : fails SetupStep.chromeStart <;>
    cases h2 : fails SetupStep.pageLoadTimeoutSet <;>
      cases h3 : fails SetupStep.stealthApply <;>
        cases h4 : fails SetupStep.cdpUserAgentOverride <;>
          cases h5 : fails SetupStep.readyStateScript <;>
            simp [start_browser, create_human_browser, hb, h1, h2, h3, h4, h5,
                  Bind.bind, Except.bind]

/-- Claim C5: count texts of the form `<number>K`/`M`/`B` (either case)
evaluate to the number times 1e3/1e6/1e9; the empty input and the sentinel
`Share` give 0; locale separators are stripped so `1,234` gives 1234; and
any other text is reduced to its digit/decimal-point characters and parsed,
with every parse failure yielding 0 (the function is total, so it never
raises). -/
theorem convert_count_to_number_spec :
    (∀ (cs : List Char) (q : ℚ) (suf : Char),
        (∀ c ∈ cs, c ∈ numeralChars) → pyFloat cs = some q →
        ((suf = 'K' ∨ suf = 'k') →
          convert_count_to_number (String.mk (cs ++ [suf])) = q * 1000) ∧
        ((suf = 'M' ∨ suf = 'm') →
          convert_count_to_number (String.mk (cs ++ [suf])) = q * 1000000) ∧
        ((suf = 'B' ∨ suf = 'b') →
          convert_count_to_number (String.mk (cs ++ [suf])) = q * 1000000000)) ∧
    convert_count_to_number "" = 0 ∧
    convert_count_to_number "Share" = 0 ∧
    convert_count_to_number "1,234" = 1234 ∧
    (∀ (s : String) (t : List Char),
        t = pyStrip (s.data.filter (fun c => c ≠ ' ' ∧ c ≠ ',')) →
        s.data.isEmpty = false →
        t.map Char.toLower ≠ "share".data →
        'K' ∉ t.map Char.toUpper → 'M' ∉ t.map Char.toUpper →
        'B' ∉ t.map Char.toUpper →
        convert_count_to_number s =
          (pyFloat ((t.map Char.toUpper).filter
            (fun c => c.isDigit ∨ c = '.'))).getD 0) := by
  refine ⟨?_, by decide, by decide, by decide, convert_fallback⟩
  intro cs q suf hchars hq
  exact ⟨fun hsuf => convert_suffix_K cs q suf hsuf hchars hq,
         fun hsuf => convert_suffix_M cs q suf hsuf hchars hq,
         fun hsuf => convert_suffix_B cs q suf hsuf hchars hq⟩

/-- Claim C5 witness: `12.3K`, `1.1m` and `2B` scale as claimed, and a noisy
text is cleaned to its numeric characters and parsed. -/
theorem convert_count_to_number_spec_witness :
    convert_count_to_number (String.mk ("12".data ++ ['K'])) = 12 * 1000 ∧
    convert_count_to_number (String.mk ("3".data ++ ['m'])) = 3 * 1000000 ∧
    convert_count_to_number (String.mk ("2".data ++ ['B'])) = 2 * 1000000000 ∧
    convert_count_to_number "v7x" =
      (pyFloat ((("v7x".data).map Char.toUpper).filter
        (fun c => c.isDigit ∨ c = '.'))).getD 0 := by
  refine ⟨?_, ?_, ?_, ?_⟩
  · exact (convert_count_to_number_spec.1 "12".data 12 'K' (by decide)
      (by rfl)).1 (Or.inl rfl)
  · exact (convert_count_to_number_spec.1 "3".data 3 'm' (by decide)
      (by rfl)).2.1 (Or.inr rfl)
  · exact (convert_count_to_number_spec.1 "2".data 2 'B' (by decide)
      (by rfl)).2.2 (Or.inl rfl)
  · exact convert_count_to_number_spec.2.2.2.2 "v7x" "v7x".data (by decide)
      (by decide) (by decide) (by decide) (by decide) (by decide)

/-- Claim C6: for a numeric 64-bit identifier `epoch * 2^32 + low` with
`low < 2^32`, the extractor returns the high 32 bits — equivalently
`id >>> 32` — rendered as the canonical timestamp string of that epoch
second count; a non-numeric id yields `none` and never raises. -/
theorem extract_timestamp_from_video_id_spec (s : String) (epoch low : ℕ)
    (hparse : pyInt s.data = some (epoch * 2 ^ 32 + low))
    (hlow : low < 2 ^ 32) (hepoch : epoch < 2 ^ 32) :
    extract_timestamp_from_video_id s = some (formatTimestamp epoch) ∧
    extract_timestamp_nat (epoch * 2 ^ 32 + low) = (epoch * 2 ^ 32 + low) >>> 32 ∧
    (∀ s' : String, pyInt s'.data = none →
        extract_timestamp_from_video_id s' = none) := by
  have h64 : epoch * 2 ^ 32 + low < 2 ^ 64 := by
    have hk : (2 : ℕ) ^ 64 = 2 ^ 32 * 2 ^ 32 := by norm_num
    calc epoch * 2 ^ 32 + low < epoch * 2 ^ 32 + 2 ^ 32 := by omega
    _ = (epoch + 1) * 2 ^ 32 := by ring
    _ ≤ 2 ^ 32 * 2 ^ 32 := Nat.mul_le_mul_right _ (by omega)
    _ = 2 ^ 64 := hk.symm
  have hdiv : (epoch * 2 ^ 32 + low) / 2 ^ 32 = epoch := by
    rw [Nat.mul_comm, Nat.mul_add_div (by positivity), Nat.div_eq_of_lt hlow,
        Nat.add_zero]
  refine ⟨?_, ?_, ?_⟩
  · unfold extract_timestamp_from_video_id
    rw [hparse]
    show some (formatTimestamp (extract_timestamp_nat (epoch * 2 ^ 32 + low))) =
      some (formatTimestamp epoch)
    rw [extract_timestamp_nat_eq _ h64, hdiv]
  · rw [extract_timestamp_nat_eq _ h64, Nat.shiftRight_eq_div_pow]
  · intro s' h
    unfold extract_timestamp_from_video_id
    rw [h]

/-- Claim C6 witness: the id `2^32` (epoch 1, low bits 0) renders the
timestamp of epoch second 1, and its numeric core is the right shift. -/
theorem extract_timestamp_from_video_id_spec_witness :
    extract_timestamp_from_video_id "4294967296" = some (formatTimestamp 1) ∧
    extract_timestamp_nat (1 * 2 ^ 32 + 0) = (1 * 2 ^ 32 + 0) >>> 32 ∧
    (∀ s' : String, pyInt s'.data = none →
        extract_timestamp_from_video_id s' = none) :=
  extract_timestamp_from_video_id_spec "4294967296" 1 0 (by decide) (by decide)
    (by decide)

/-- Claim C7: once a post extracting to `is_new = False`, `is_pinned = False`
is reached in a batch, no later element of the batch is fetched or extracted
(the scan result does not depend on the batch suffix after that post); a
batch in which every successfully extracted post is new or pinned is scanned
to the end (every element is fetched); and with pinned exclusion on, every
record in the result set that the scan itself appended is non-pinned — a
pinned post never reaches the record set, yet never stops the scan. -/
theorem scrape_recent_videos_stop_and_pinned :
    (∀ (ex : Bool) (e : PostElem) (d : VData) (pre post : List PostElem)
        (videos : List VRecord),
        e.extract = some d → d.isNew = false → d.isPinned = false →
        e.videoId ∉ videos.map VRecord.videoId →
        e.videoId ∉ pre.map PostElem.videoId →
        scan_video_batch ex videos (pre ++ e :: post) =
          scan_video_batch ex videos (pre ++ [e])) ∧
    (∀ (ex : Bool) (batch : List PostElem) (videos : List VRecord),
        (∀ e ∈ batch, ∀ d, e.extract = some d → d.isNew = true ∨ d.isPinned = true) →
        (batch.map PostElem.videoId).Nodup →
        (∀ e ∈ batch, e.videoId ∉ videos.map VRecord.videoId) →
        (scan_video_batch ex videos batch).2 = batch.map PostElem.videoId) ∧
    (∀ (batch : List PostElem) (videos : List VRecord) (r : VRecord),
        r ∈ (scan_video_batch true videos batch).1 →
        r ∈ videos ∨ r.data.isPinned = false) := by
  refine ⟨?_, ?_, scan_video_batch_pinned_excluded_lemma⟩
  · intro ex e d pre post videos hd hnew hpin hv hpre
    exact scan_video_batch_stop_lemma ex e d hd hnew hpin pre post videos hv hpre
  · intro ex batch videos hsafe hnd hfresh
    refine scan_video_batch_all_lemma ex batch videos ?_ hnd hfresh
    intro e he d hd
    rcases hsafe e he d hd with h | h <;> simp [stop_condition, h]

/-- Claim C7 witness: in a batch `new, pinned, old, new` with pinned
exclusion the old post halts the scan (the trailing post is irrelevant), an
all-new/pinned batch is fetched entirely, and the record the scan appends
for a pinned-free post is non-pinned. -/
theorem scrape_recent_videos_stop_and_pinned_witness :
    scan_video_batch true []
        [PostElem.mk 1 (some (VData.mk true false)),
         PostElem.mk 2 (some (VData.mk true true)),
         PostElem.mk 3 (some (VData.mk false false)),
         PostElem.mk 4 (some (VData.mk true false))] =
      scan_video_batch true []
        [PostElem.mk 1 (some (VData.mk true false)),
         PostElem.mk 2 (some (VData.mk true true)),
         PostElem.mk 3 (some (VData.mk false false))] ∧
    (scan_video_batch true []
        [PostElem.mk 1 (some (VData.mk true false)),
         PostElem.mk 2 (some (VData.mk true true))]).2 = [1, 2] ∧
    (VRecord.mk 1 (VData.mk true false) ∈
        (scan_video_batch true [] [PostElem.mk 1 (some (VData.mk true false))]).1 →
      VRecord.mk 1 (VData.mk true false) ∈ ([] : List VRecord) ∨
        (VData.mk true false).isPinned = false) := by
  refine ⟨?_, ?_, ?_⟩
  · exact scrape_recent_videos_stop_and_pinned.1 true
      (PostElem.mk 3 (some (VData.mk false false))) (VData.mk false false)
      [PostElem.mk 1 (some (VData.mk true false)),
       PostElem.mk 2 (some (VData.mk true true))]
      [PostElem.mk 4 (some (VData.mk true false))] [] rfl rfl rfl (by decide) (by decide)
  · exact scrape_recent_videos_stop_and_pinned.2.1 true
      [PostElem.mk 1 (some (VData.mk true false)),
       PostElem.mk 2 (some (VData.mk true true))] [] (by decide) (by decide) (by decide)
  · exact scrape_recent_videos_stop_and_pinned.2.2
      [PostElem.mk 1 (some (VData.mk true false))] [] (VRecord.mk 1 (VData.mk true false))

/-- Claim C10: a post whose posting time is missing or unparseable gets
`is_new = True`, such a record never satisfies the non-new-and-non-pinned
stop test, and scanning it always continues into the rest of the batch. -/
theorem undeterminable_age_is_new :
    (∀ (now : ℤ) (th : ℚ), video_is_new none now th = true) ∧
    (∀ (s : String) (now : ℤ) (th : ℚ), parseDateTime s = none →
        video_is_new (some s) now th = true) ∧
    (∀ d : VData, d.isNew = true → stop_condition d = false) ∧
    (∀ (ex : Bool) (videos : List VRecord) (e : PostElem) (rest : List PostElem)
        (s : String) (now : ℤ) (th : ℚ) (pinned : Bool),
        parseDateTime s = none →
        e.extract = some (VData.mk (video_is_new (some s) now th) pinned) →
        e.videoId ∉ videos.map VRecord.videoId →
        ∃ videos' : List VRecord,
          scan_video_batch ex videos (e :: rest) =
            ((scan_video_batch ex videos' rest).1,
             e.videoId :: (scan_video_batch ex videos' rest).2)) := by
  refine ⟨fun now th => rfl, ?_, ?_, ?_⟩
  · intro s now th hp
    simp [video_is_new, hp]
  · intro d hd
    simp [stop_condition, hd]
  · intro ex videos e rest s now th pinned hp he hv
    have hnew : video_is_new (some s) now th = true := by simp [video_is_new, hp]
    rw [hnew] at he
    by_cases hx : (ex && (VData.mk true pinned).isPinned) = true
    · exact ⟨videos, scan_step_excluded ex videos e rest _ hv he hx⟩
    · refine ⟨videos ++ [VRecord.mk e.videoId (VData.mk true pinned)], ?_⟩
      exact scan_step_continue ex videos e rest _ hv he (by simpa using hx)
        (by simp [stop_condition])

/-- Claim C10 witness: a post whose posting-time text does not parse is
extracted as new and the scan proceeds past it. -/
theorem undeterminable_age_is_new_witness :
    ∃ videos' : List VRecord,
      scan_video_batch true []
          (PostElem.mk 7 (some (VData.mk (video_is_new (some "not a time") 0 10) false)) ::
            [PostElem.mk 8 none]) =
        ((scan_video_batch true videos' [PostElem.mk 8 none]).1,
         7 :: (scan_video_batch true videos' [PostElem.mk 8 none]).2) :=
  undeterminable_age_is_new.2.2.2 true [] _ [PostElem.mk 8 none] "not a time" 0 10 false
    (by decide) rfl (by decide)

/-- Claim C9: starting from the single freshly created handle, any sequence
of rotations and cleanups keeps the number of live browser handles at most 1
at every instant (every prefix of the event trace), and a rotation releases
the current handle (`quit`) strictly before creating its replacement. -/
theorem rotation_at_most_one_live_handle :
    (∀ (cmds : List SessionCmd) (k : ℕ),
        liveFrom 0 ((BrowserEv.create :: runSessionCmds true cmds).take k) ≤ 1) ∧
    (∀ live : Bool,
        stepSessionCmd live SessionCmd.rotate =
          (true, (if live then [BrowserEv.destroy] else []) ++ [BrowserEv.create])) := by
  constructor
  · intro cmds k
    cases k with
    | zero => simp [liveFrom]
    | succ k' =>
      have h := prefixBounded_take _ 1 (by simpa using runSessionCmds_prefixBounded cmds true) k'
      simpa [liveFrom, applyEv] using h
  · intro live
    cases live <;> rfl

end TikTokScraper
